import Mathlib

/-!
Verification of `ai_sandbox` (src/ai_sandbox/cli.py), a CLI tool that builds a
container image and runs a container with a host directory mounted at
`/workspace`.  Python strings are embedded as lists of characters; each pure
function of the source is translated into a Lean function over that
representation, and the small stateful fragments of `main` (token injection,
auth resolution, build decision, legacy-flag handling, exception mapping) are
embedded as explicit functions from their inputs to their outputs together
with the log messages and engine invocations they produce.
-/

/-- A Python string, embedded as its list of characters. -/
abbrev Str := List Char

/-- Characters of a Lean string literal, used to write `Str` constants. -/
def chars (x : String) : Str := x.data

/-- Python `item.startswith(pre)`. -/
def pyStartsWith (item pre : Str) : Bool := pre.isPrefixOf item

/-- Python truthiness of an optional string: `None` and `""` are falsy. -/
def pyTruthy : Option Str → Bool
  | none => false
  | some x => !x.isEmpty

/-- Value of an optional string at a point where the source has checked it is truthy. -/
def optVal (o : Option Str) : Str := o.getD []

/-- Loop body of `has_env_arg` (cli.py lines 164-187): the `while idx < len` loop,
embedded with an explicit iteration bound `fuel`.  Each iteration advances `idx` by
1 or 2, so `extra_args.length` iterations always suffice; when `fuel` reaches 0 we
have `idx ≥ extra_args.length` and the loop would have exited with `False` anyway. -/
def hasEnvArgAux (extra_args : List Str) (keyPre : Str) : Nat → Nat → Bool
  | 0, _ => false
  | fuel + 1, idx =>
    if h : idx < extra_args.length then
      let item := extra_args[idx]
      if item == chars "-e" || item == chars "--env" then
        if decide (idx + 1 < extra_args.length) &&
            pyStartsWith (extra_args.getD (idx + 1) []) keyPre then
          true
        else
          hasEnvArgAux extra_args keyPre fuel (idx + 2)
      else if pyStartsWith item keyPre then
        true
      else if pyStartsWith item (chars "--env=") && pyStartsWith (item.drop 6) keyPre then
        true
      else if pyStartsWith item (chars "-e") && item != chars "-e" &&
          (let c := item.drop 2
           pyStartsWith (if pyStartsWith c (chars "=") then c.drop 1 else c) keyPre) then
        true
      else
        hasEnvArgAux extra_args keyPre fuel (idx + 1)
    else false

/-- `has_env_arg(extra_args, key)` from cli.py lines 164-187: scans the extra run
args for an entry that sets the environment variable `key`. -/
def hasEnvArg (extra_args : List Str) (key : Str) : Bool :=
  hasEnvArgAux extra_args (key ++ chars "=") extra_args.length 0

/-- Modelled from the spec's words (section 4.2): a left-to-right scan of the
extra-run-args sequence recognizing the supported syntaxes for setting an
environment variable `key` — `-e`/`--env` followed by a next token starting with
`KEY=` (the next token being consumed by the flag), a single `--env=KEY=...`
token, a fused `-eKEY=...` token with or without a separating `=`, and a bare
`KEY=...` token; true on the first match, false when the sequence is exhausted. -/
def specEnvScan (key : Str) : List Str → Bool
  | [] => false
  | item :: rest =>
    if item == chars "-e" || item == chars "--env" then
      match rest with
      | [] => false
      | nxt :: rest2 =>
        if pyStartsWith nxt (key ++ chars "=") then true else specEnvScan key rest2
    else if pyStartsWith item (key ++ chars "=") then
      true
    else if pyStartsWith item (chars "--env=") && pyStartsWith (item.drop 6) (key ++ chars "=") then
      true
    else if pyStartsWith item (chars "-e") && item != chars "-e" &&
        (let c := item.drop 2
         pyStartsWith (if pyStartsWith c (chars "=") then c.drop 1 else c) (key ++ chars "=")) then
      true
    else specEnvScan key rest

example : hasEnvArg [chars "-e", chars "GITHUB_TOKEN=foo"] (chars "GITHUB_TOKEN") = true := by decide
example : hasEnvArg [chars "--env=GITHUB_TOKEN=foo"] (chars "GITHUB_TOKEN") = true := by decide
example : hasEnvArg [chars "-eGITHUB_TOKEN=foo"] (chars "GITHUB_TOKEN") = true := by decide
example : hasEnvArg [chars "-e=GITHUB_TOKEN=foo"] (chars "GITHUB_TOKEN") = true := by decide
example : hasEnvArg [chars "GITHUB_TOKEN=foo"] (chars "GITHUB_TOKEN") = true := by decide
example : hasEnvArg [chars "-e", chars "OTHER=foo"] (chars "GITHUB_TOKEN") = false := by decide

theorem specEnvScan_nil (key : Str) : specEnvScan key [] = false := rfl

theorem specEnvScan_flag_nil (key item : Str)
    (hflag : (item == chars "-e" || item == chars "--env") = true) :
    specEnvScan key [item] = false := by
  simp [specEnvScan, hflag]

theorem specEnvScan_flag_cons (key item nxt : Str) (rest2 : List Str)
    (hflag : (item == chars "-e" || item == chars "--env") = true) :
    specEnvScan key (item :: nxt :: rest2) =
      if pyStartsWith nxt (key ++ chars "=") then true else specEnvScan key rest2 := by
  simp [specEnvScan, hflag]

theorem specEnvScan_not_flag (key item : Str) (rest : List Str)
    (hflag : (item == chars "-e" || item == chars "--env") = false) :
    specEnvScan key (item :: rest) =
      (if pyStartsWith item (key ++ chars "=") then true
       else if pyStartsWith item (chars "--env=") && pyStartsWith (item.drop 6) (key ++ chars "=") then true
       else if pyStartsWith item (chars "-e") && item != chars "-e" &&
           (let c := item.drop 2
            pyStartsWith (if pyStartsWith c (chars "=") then c.drop 1 else c) (key ++ chars "=")) then true
       else specEnvScan key rest) := by
  cases rest <;> simp [specEnvScan, hflag]


theorem hasEnvArgAux_eq_specEnvScan (extra_args : List Str) (key : Str) :
    ∀ (fuel idx : Nat), extra_args.length ≤ idx + fuel →
      hasEnvArgAux extra_args (key ++ chars "=") fuel idx = specEnvScan key (extra_args.drop idx) := by
  intro fuel
  induction fuel with
  | zero =>
    intro idx h
    rw [List.drop_eq_nil_of_le (by omega)]
    simp [hasEnvArgAux, specEnvScan]
  | succ n ih =>
    intro idx h
    by_cases hidx : idx < extra_args.length
    · rw [List.drop_eq_getElem_cons hidx]
      rw [hasEnvArgAux]
      simp only [dif_pos hidx]
      by_cases hflag : (extra_args[idx] == chars "-e" || extra_args[idx] == chars "--env") = true
      · rw [if_pos hflag]
        by_cases h2 : idx + 1 < extra_args.length
        · rw [List.drop_eq_getElem_cons h2, specEnvScan_flag_cons _ _ _ _ hflag]
          have hgetD : extra_args.getD (idx + 1) [] = extra_args[idx + 1] := by
            simp [List.getD_eq_getElem?_getD, List.getElem?_eq_getElem h2]
          rw [hgetD]
          by_cases hs : pyStartsWith (extra_args[idx + 1]) (key ++ chars "=") = true
          · simp [h2, hs]
          · have hcond : (decide (idx + 1 < extra_args.length) &&
                pyStartsWith (extra_args[idx + 1]) (key ++ chars "=")) = false := by
              simp [hs]
            rw [hcond, if_neg Bool.false_ne_true, if_neg hs]
            exact ih (idx + 2) (by omega)
        · have hdrop2 : extra_args.drop (idx + 1) = [] := List.drop_eq_nil_of_le (by omega)
          rw [hdrop2, specEnvScan_flag_nil _ _ hflag]
          have hcond : decide (idx + 1 < extra_args.length) = false := by simp [h2]
          rw [hcond]
          simp only [Bool.false_and]
          rw [if_neg Bool.false_ne_true]
          rw [ih (idx + 2) (by omega), List.drop_eq_nil_of_le (by omega), specEnvScan_nil]
      · rw [if_neg hflag]
        rw [specEnvScan_not_flag _ _ _ (by simpa using hflag)]
        rw [ih (idx + 1) (by omega)]
    · rw [hasEnvArgAux]
      rw [dif_neg hidx]
      rw [List.drop_eq_nil_of_le (by omega)]
      simp [specEnvScan]

theorem hasEnvArg_eq_specEnvScan (extra_args : List Str) (key : Str) :
    hasEnvArg extra_args key = specEnvScan key extra_args := by
  have := hasEnvArgAux_eq_specEnvScan extra_args key extra_args.length 0 (by omega)
  simpa using this

/-- `build_run_command` (cli.py lines 131-161): assembles the engine `run`
argument vector.  `container_cli` is the cached engine binary; the Python
truthiness tests `if auth_file:` and `if name:` treat `None` and the empty
string alike. -/
def buildRunCommand (container_cli image context : Str) (name : Option Str)
    (extra_args container_cmd : List Str) (auth_file : Option Str) (use_tty : Bool) :
    List Str :=
  let cmd := [container_cli, chars "run", chars "--rm", chars "--add-host",
    chars "host.docker.internal:host-gateway", chars "-v",
    context ++ chars ":/workspace", chars "-w", chars "/workspace"]
  let cmd := if pyTruthy auth_file then
      cmd ++ [chars "-v", optVal auth_file ++ chars ":/root/.codex/auth.json:ro"]
    else cmd
  let cmd := if use_tty then cmd ++ [chars "-it"] else cmd
  let cmd := if pyTruthy name then cmd ++ [chars "--name", optVal name] else cmd
  cmd ++ extra_args ++ [image] ++ container_cmd

/-- `build_image`'s engine vector (cli.py line 126). -/
def buildImageCmd (container_cli image dockerfile context : Str) : List Str :=
  [container_cli, chars "build", chars "-t", image, chars "-f", dockerfile, context]

/-- Python `hay.split(needle, 1)` when `needle` occurs: the text before and after
the first occurrence of `needle` in `hay`; `none` when `needle` does not occur. -/
def splitFirst (needle : Str) : Str → Option (Str × Str)
  | [] => if needle.isEmpty then some ([], []) else none
  | c :: rest =>
    if needle.isPrefixOf (c :: rest) then some ([], (c :: rest).drop needle.length)
    else (splitFirst needle rest).map (fun p => (c :: p.1, p.2))

/-- Python `needle in hay` (substring containment). -/
def pyIn (needle hay : Str) : Bool := (splitFirst needle hay).isSome

/-- Python `item.split("=", 1)[0]`: the text before the first `=`, or all of
`item` when it has no `=`. -/
def beforeEq (item : Str) : Str :=
  match splitFirst (chars "=") item with
  | some p => p.1
  | none => item

/-- The `REDACT_KEYS` denylist (cli.py line 20).  The source keeps these in a
Python `set`, whose iteration order is unspecified; the list below fixes the
order in which the literal is written.  Every property proved about redaction
below either holds for any order or concerns tokens matched by a single key. -/
def redactKeys : List Str :=
  [chars "GITHUB_TOKEN", chars "GH_TOKEN", chars "GITHUB_AI_PAT_TOKEN",
   chars "PASSWORD", chars "SECRET"]

/-- Body of the `for key in REDACT_KEYS` loop of `_redact_item` (cli.py lines
34-42), walking the key list. -/
def redactItemGo (item : Str) : List Str → Str
  | [] => item
  | key :: ks =>
    if pyStartsWith item (key ++ chars "=") ||
        (pyIn (chars "=") item && beforeEq item == key) then
      key ++ chars "=REDACTED"
    else
      match splitFirst (key ++ chars "=") item with
      | some p => p.1 ++ key ++ chars "=REDACTED"
      | none => redactItemGo item ks

/-- `_redact_item` (cli.py lines 34-42). -/
def redactItem (item : Str) : Str := redactItemGo item redactKeys

/-- The two agent kinds accepted by `--agent` (cli.py lines 292-297). -/
inductive Agent
  | codex
  | copilot
deriving DecidableEq

/-- Token injection step of `main` (cli.py lines 439-453): starting from the
user-supplied `--docker-arg` list, appends `-e KEY=value` pairs sourced from the
process environment.  `env` models `os.getenv` (`none` when the variable is
unset); the Python truthiness test `if gh_token ...` treats `None` and `""`
alike. -/
def injectTokens (agent : Agent) (env : Str → Option Str) (docker_arg : List Str) :
    List Str :=
  let extra_args := docker_arg
  let extra_args :=
    if agent = Agent.copilot then
      let gh := env (chars "GH_TOKEN")
      let extra1 :=
        if pyTruthy gh && !hasEnvArg extra_args (chars "GH_TOKEN") then
          extra_args ++ [chars "-e", chars "GH_TOKEN=" ++ optVal gh]
        else extra_args
      let gt := env (chars "GITHUB_TOKEN")
      if pyTruthy gt && !hasEnvArg extra1 (chars "GITHUB_TOKEN") then
        extra1 ++ [chars "-e", chars "GITHUB_TOKEN=" ++ optVal gt]
      else extra1
    else extra_args
  let pat := env (chars "GITHUB_AI_PAT_TOKEN")
  if pyTruthy pat && !(agent = Agent.copilot : Bool) &&
      !hasEnvArg extra_args (chars "GITHUB_TOKEN") then
    extra_args ++ [chars "-e", chars "GITHUB_TOKEN=" ++ optVal pat]
  else extra_args

/-- Modelled from Python `os.path.expanduser` for the forms the tool uses: a
lone `~` or a leading `~/` is replaced by the home directory; a `~user` form
with a named user is not modelled and is returned unchanged (as Python does
when the user is unknown). -/
def expanduser (home p : Str) : Str :=
  if p == chars "~" then home
  else if pyStartsWith p (chars "~/") then home ++ p.drop 1
  else p

/-- Python `os.path.isabs` on POSIX: the path starts with a slash. -/
def isabs (p : Str) : Bool := pyStartsWith p (chars "/")

/-- Python `os.path.join(a, b)` on POSIX for two components. -/
def joinPath (a b : Str) : Str :=
  if isabs b then b
  else if a.isEmpty then b
  else if a.getLast? == some '/' then a ++ b
  else a ++ chars "/" ++ b

/-- `DEFAULT_AUTH_FILES` (cli.py lines 15-18). -/
def defaultAuthFiles : List Str :=
  [chars "~/.codex/device_auth.json", chars "~/.codex/auth.json"]

/-- `resolve_auth_candidates` (cli.py lines 313-322): tilde-expand each
candidate; keep it if absolute after expansion, otherwise join the original
candidate onto the mount directory (`context` parameter). -/
def resolveAuthCandidates (home context : Str) (candidates : List Str) : List Str :=
  candidates.map (fun candidate =>
    let expanded := expanduser home candidate
    if isabs expanded then expanded else joinPath context candidate)

/-- `resolve_auth_file` (cli.py lines 325-332): the first resolved candidate
that exists on disk (`isfile` models `os.path.isfile`). -/
def resolveAuthFile (isfile : Str → Bool) (home context : Str)
    (candidates : List Str) : Option Str :=
  (resolveAuthCandidates home context candidates).find? isfile

/-- Python `str.lower` restricted to ASCII, as used on the `--auth-file` value. -/
def asciiLower (p : Str) : Str := p.map Char.toLower

/-- Auth-resolution step of `main` (cli.py lines 454-466), returning the
resolved auth file (if any) and the warning message logged when no candidate
exists. -/
def authPhase (isfile : Str → Bool) (home mount_dir : Str) (auth_file : Option Str)
    (no_auth : Bool) : Option Str × Option Str :=
  let auth_candidates := if pyTruthy auth_file then [optVal auth_file] else defaultAuthFiles
  if no_auth || (pyTruthy auth_file && asciiLower (optVal auth_file) == chars "none") then
    (none, none)
  else
    let resolved := resolveAuthCandidates home mount_dir auth_candidates
    match resolveAuthFile isfile home mount_dir auth_candidates with
    | some f => (some f, none)
    | none =>
      (none, some (chars "Auth file not found at " ++
        List.intercalate (chars ", ") resolved ++
        chars ". Continuing without mounting credentials."))

/-- Default in-container command per agent (cli.py lines 393-396). -/
def defaultCommand : Agent → List Str
  | Agent.copilot => [chars "copilot", chars "--add-dir", chars "/workspace",
      chars "--allow-all-tools"]
  | Agent.codex => [chars "codex", chars "--full-auto"]

/-- In-container command selection of `main` (cli.py lines 388-396): strip one
leading `--` token, then fall back to the agent's default when nothing is left. -/
def containerCommand (agent : Agent) (cmd : List Str) : List Str :=
  let cmd_args := if cmd.take 1 == [chars "--"] then cmd.drop 1 else cmd
  if cmd_args.isEmpty then defaultCommand agent else cmd_args

/-- Build decision of `main` (cli.py lines 471-482): first component is
`needs_build`, second records whether the `image_exists` probe was invoked
(it is called only in the final `elif`). -/
def buildDecision (force_build no_build imageExistsProbe : Bool) : Bool × Bool :=
  if force_build then (true, false)
  else if no_build then (false, false)
  else (!imageExistsProbe, true)

/-- Outcome of the build step of `main` (cli.py lines 484-492): an early exit
status (if any), the engine build invocations issued, and the error messages
logged. -/
structure BuildPhaseResult where
  exitCode : Option Nat
  engineCalls : List (List Str)
  errorLogs : List Str
deriving DecidableEq

/-- Build step of `main` (cli.py lines 484-492): when a build is needed, check
that the Dockerfile exists before invoking the engine; on a missing Dockerfile
log an error naming the path and return exit status 1 without any engine call. -/
def buildPhase (isfile : Str → Bool) (container_cli image dockerfile context : Str)
    (needs_build : Bool) : BuildPhaseResult :=
  if needs_build then
    if !isfile dockerfile then
      { exitCode := some 1,
        engineCalls := [],
        errorLogs := [chars "Dockerfile not found at " ++ dockerfile ++
          chars ". Cannot build image. Use --dockerfile or --build-context to specify the correct location."] }
    else
      { exitCode := none,
        engineCalls := [buildImageCmd container_cli image dockerfile context],
        errorLogs := [] }
  else
    { exitCode := none, engineCalls := [], errorLogs := [] }

/-- The Python exceptions that reach `main`'s handlers.  In the Python standard
library, `subprocess.TimeoutExpired` and `subprocess.CalledProcessError` are
sibling subclasses of `SubprocessError`: a `TimeoutExpired` instance is not a
`CalledProcessError`. -/
inductive PyExc
  | timeoutExpired
  | calledProcessError
  | keyboardInterrupt
  | fileNotFoundError
  | otherError
deriving DecidableEq

/-- Python `isinstance(e, subprocess.CalledProcessError)`. -/
def isCalledProcessErrorInstance : PyExc → Bool
  | PyExc.calledProcessError => true
  | _ => false

/-- Python `isinstance(e, KeyboardInterrupt)`. -/
def isKeyboardInterruptInstance : PyExc → Bool
  | PyExc.keyboardInterrupt => true
  | _ => false

/-- Exit status chosen by `main`'s `except` clauses (cli.py lines 504-515),
tried in source order: `KeyboardInterrupt` gives 130, `CalledProcessError`
gives 2, and any other `Exception` gives 1. -/
def mainExceptCode (e : PyExc) : Nat :=
  if isKeyboardInterruptInstance e then 130
  else if isCalledProcessErrorInstance e then 2
  else 1

/-- Exception escaping `run_subprocess` when a bounded command exceeds its
timeout (cli.py lines 96-98): the handler logs and then re-raises the caught
`subprocess.TimeoutExpired` unchanged with a bare `raise`. -/
def runSubprocessTimeoutExc : PyExc := PyExc.timeoutExpired

/-- Value of `args.mount_dir` after parsing (cli.py lines 253-257): argparse
fills in `os.getcwd()` when `--mount-dir` is not passed, so an explicit value
equal to the current directory is indistinguishable from the default. -/
def parsedMountDir (cwd : Str) (userMountDir : Option Str) : Str :=
  userMountDir.getD cwd

/-- Result of the legacy `--context` handling (cli.py lines 377-386). -/
structure LegacyResult where
  build_context : Option Str
  mount_dir : Str
  warned : Bool
deriving DecidableEq

/-- Legacy `--context` handling of `main` (cli.py lines 377-386): when
`--context` was passed, warn, fill `build_context` if it is unset, and replace
`mount_dir` if it (still) equals the current working directory. -/
def applyLegacyContext (cwd : Str) (legacy_context build_context0 : Option Str)
    (mount_dir0 : Str) : LegacyResult :=
  match legacy_context with
  | none => { build_context := build_context0, mount_dir := mount_dir0, warned := false }
  | some lc =>
    { build_context := match build_context0 with
        | none => some lc
        | some b => some b,
      mount_dir := if mount_dir0 == cwd then lc else mount_dir0,
      warned := true }

theorem specEnvScan_append_mono (key : Str) (more : List Str) :
    ∀ args, specEnvScan key args = true → specEnvScan key (args ++ more) = true := by
  have H : ∀ n args, List.length args ≤ n → specEnvScan key args = true →
      specEnvScan key (args ++ more) = true := by
    intro n
    induction n with
    | zero =>
      intro args hl h
      have : args = [] := List.length_eq_zero.mp (by omega)
      subst this
      simp [specEnvScan] at h
    | succ n ih =>
      intro args hl h
      cases args with
      | nil => simp [specEnvScan] at h
      | cons item rest =>
        rw [List.cons_append]
        by_cases hflag : (item == chars "-e" || item == chars "--env") = true
        · cases rest with
          | nil =>
            rw [specEnvScan_flag_nil _ _ hflag] at h
            exact absurd h (by simp)
          | cons nxt rest2 =>
            rw [specEnvScan_flag_cons _ _ _ _ hflag] at h
            rw [List.cons_append, specEnvScan_flag_cons _ _ _ _ hflag]
            by_cases hs : pyStartsWith nxt (key ++ chars "=") = true
            · rw [if_pos hs]
            · rw [if_neg hs] at h ⊢
              exact ih rest2 (by simp at hl; omega) h
        · have hflag' : (item == chars "-e" || item == chars "--env") = false := by
            simpa using hflag
          rw [specEnvScan_not_flag _ _ _ hflag'] at h
          rw [specEnvScan_not_flag _ _ _ hflag']
          by_cases h1 : pyStartsWith item (key ++ chars "=") = true
          · rw [if_pos h1]
          · rw [if_neg h1] at h ⊢
            by_cases h2 : (pyStartsWith item (chars "--env=") &&
                pyStartsWith (item.drop 6) (key ++ chars "=")) = true
            · rw [if_pos h2]
            · rw [if_neg h2] at h ⊢
              by_cases h3 : (pyStartsWith item (chars "-e") && item != chars "-e" &&
                  (let c := item.drop 2
                   pyStartsWith (if pyStartsWith c (chars "=") then c.drop 1 else c)
                     (key ++ chars "="))) = true
              · rw [if_pos h3]
              · rw [if_neg h3] at h ⊢
                exact ih rest (by simp at hl; omega) h
  exact fun args => H args.length args le_rfl

theorem hasEnvArg_append_mono (key : Str) (args more : List Str)
    (h : hasEnvArg args key = true) : hasEnvArg (args ++ more) key = true := by
  rw [hasEnvArg_eq_specEnvScan] at h ⊢
  exact specEnvScan_append_mono key more args h

theorem find?_eq_head?_dropWhile {α : Type} (p : α → Bool) :
    ∀ l : List α, l.find? p = (l.dropWhile (fun a => !p a)).head? := by
  intro l
  induction l with
  | nil => rfl
  | cons a t ih =>
    by_cases h : p a = true
    · simp [List.find?_cons, List.dropWhile_cons, h]
    · simp only [List.find?_cons, List.dropWhile_cons, h, Bool.not_false, if_true, ih]

theorem splitFirst_eq_some (needle : Str) :
    ∀ hay pre suf, splitFirst needle hay = some (pre, suf) → hay = pre ++ needle ++ suf := by
  intro hay
  induction hay with
  | nil =>
    intro pre suf h
    rw [splitFirst] at h
    by_cases he : needle.isEmpty
    · rw [if_pos he] at h
      have hn : needle = [] := by simpa [List.isEmpty_iff] using he
      cases h
      simp [hn]
    · rw [if_neg he] at h
      cases h
  | cons c rest ih =>
    intro pre suf h
    rw [splitFirst] at h
    by_cases hp : needle.isPrefixOf (c :: rest) = true
    · rw [if_pos hp] at h
      obtain ⟨t, ht⟩ := List.isPrefixOf_iff_prefix.mp hp
      cases h
      rw [← ht]
      simp [List.drop_left]
    · rw [if_neg hp] at h
      cases hrec : splitFirst needle rest with
      | none => rw [hrec] at h; cases h
      | some p =>
        rw [hrec] at h
        obtain ⟨pre', suf'⟩ := p
        cases h
        have := ih pre' suf' hrec
        simp [this]

theorem pyIn_of_pyStartsWith (needle hay : Str) (hne : needle ≠ [])
    (h : pyStartsWith hay needle = true) : pyIn needle hay = true := by
  cases hay with
  | nil =>
    exfalso
    cases needle with
    | nil => exact hne rfl
    | cons c cs => simp [pyStartsWith, List.isPrefixOf] at h
  | cons c rest =>
    have h' : needle.isPrefixOf (c :: rest) = true := h
    rw [pyIn, splitFirst, if_pos h']
    rfl

theorem pyIn_sandwich (needle : Str) :
    ∀ pre suf, pyIn needle (pre ++ needle ++ suf) = true := by
  intro pre
  induction pre with
  | nil =>
    intro suf
    cases hsh : needle ++ suf with
    | nil =>
      obtain ⟨hn, hs⟩ := List.append_eq_nil.mp hsh
      simp [pyIn, splitFirst, hn, hs]
    | cons c rest =>
      have hp : needle.isPrefixOf (needle ++ suf) = true :=
        List.isPrefixOf_iff_prefix.mpr ⟨suf, rfl⟩
      rw [List.nil_append, pyIn]
      rw [hsh] at hp ⊢
      rw [splitFirst, if_pos hp]
      rfl
  | cons c pre' ih =>
    intro suf
    have hlist : (c :: pre') ++ needle ++ suf = c :: (pre' ++ needle ++ suf) := by simp
    rw [pyIn, hlist, splitFirst]
    by_cases hp : needle.isPrefixOf (c :: (pre' ++ needle ++ suf)) = true
    · rw [if_pos hp]
      rfl
    · rw [if_neg hp]
      have := ih suf
      rw [pyIn] at this
      cases hrec : splitFirst needle (pre' ++ needle ++ suf) with
      | none => rw [hrec] at this; simp at this
      | some p => simp

/-- C1: for every configuration, `build_run_command` returns exactly the engine
binary, `run`, `--rm`, `--add-host host.docker.internal:host-gateway`,
`-v <mount>:/workspace`, `-w /workspace`, then the auth mount iff an auth file
was resolved, then `-it` iff TTY is requested, then `--name <name>` iff a name
was given, then the extra run args verbatim, then the image, then the
in-container command tokens, and nothing else. -/
theorem c1_build_run_command (container_cli image context : Str) (name : Option Str)
    (extra_args container_cmd : List Str) (auth_file : Option Str) (use_tty : Bool)
    (hname : name ≠ some []) (hauth : auth_file ≠ some []) :
    buildRunCommand container_cli image context name extra_args container_cmd
        auth_file use_tty =
      [container_cli, chars "run", chars "--rm", chars "--add-host",
        chars "host.docker.internal:host-gateway", chars "-v",
        context ++ chars ":/workspace", chars "-w", chars "/workspace"] ++
      (match auth_file with
        | some a => [chars "-v", a ++ chars ":/root/.codex/auth.json:ro"]
        | none => []) ++
      (if use_tty then [chars "-it"] else []) ++
      (match name with
        | some n => [chars "--name", n]
        | none => []) ++
      extra_args ++ [image] ++ container_cmd := by
  rcases auth_file with _ | a
  · rcases name with _ | nm
    · cases use_tty <;> simp [buildRunCommand, pyTruthy, optVal]
    · rcases nm with _ | ⟨x, xs⟩
      · exact absurd rfl hname
      · cases use_tty <;> simp [buildRunCommand, pyTruthy, optVal]
  · rcases a with _ | ⟨y, ys⟩
    · exact absurd rfl hauth
    · rcases name with _ | nm
      · cases use_tty <;> simp [buildRunCommand, pyTruthy, optVal]
      · rcases nm with _ | ⟨x, xs⟩
        · exact absurd rfl hname
        · cases use_tty <;> simp [buildRunCommand, pyTruthy, optVal]

/-- Witness for C1 at a concrete configuration with every optional part present. -/
theorem c1_build_run_command_witness :
    buildRunCommand (chars "docker") (chars "img") (chars "/ctx")
        (some (chars "my-container")) [chars "-e", chars "FOO=bar"]
        [chars "codex", chars "--full-auto"]
        (some (chars "/ctx/mock/device_auth.json")) true =
      [chars "docker", chars "run", chars "--rm", chars "--add-host",
        chars "host.docker.internal:host-gateway", chars "-v", chars "/ctx:/workspace",
        chars "-w", chars "/workspace", chars "-v",
        chars "/ctx/mock/device_auth.json:/root/.codex/auth.json:ro", chars "-it",
        chars "--name", chars "my-container", chars "-e", chars "FOO=bar",
        chars "img", chars "codex", chars "--full-auto"] := by
  rw [c1_build_run_command (chars "docker") (chars "img") (chars "/ctx")
    (some (chars "my-container")) [chars "-e", chars "FOO=bar"]
    [chars "codex", chars "--full-auto"]
    (some (chars "/ctx/mock/device_auth.json")) true (by decide) (by decide)]
  decide

/-- C2: `has_env_arg(args, key)` agrees, on every sequence of extra-run-arg
tokens and every key, with the spec's left-to-right scan recognizing the
supported syntaxes for setting the environment variable `key`, and it returns
false when only a different key is set. -/
theorem c2_has_env_arg (extra_args : List Str) (key : Str) :
    hasEnvArg extra_args key = specEnvScan key extra_args
    ∧ hasEnvArg [chars "-e", chars "OTHER=foo"] (chars "GITHUB_TOKEN") = false :=
  ⟨hasEnvArg_eq_specEnvScan extra_args key, by decide⟩

/-- C8 counterexample: a timeout in `run_subprocess` re-raises
`subprocess.TimeoutExpired`, which is not a `CalledProcessError`, so `main`'s
handlers map it to exit status 1 — not the external-command-failure status 2
the claim asserts. -/
theorem c8_timeout_counterexample :
    mainExceptCode runSubprocessTimeoutExc = 1 ∧ mainExceptCode runSubprocessTimeoutExc ≠ 2 := by
  constructor
  · rfl
  · decide

/-- C8 (amended): a timeout is logged and re-raised unchanged as
`TimeoutExpired`; since `TimeoutExpired` is not an instance of
`CalledProcessError`, the process exits with the generic failure status 1,
while status 2 is produced exactly by a `CalledProcessError` and 130 by a
`KeyboardInterrupt`. -/
theorem c8_timeout_exit_code :
    mainExceptCode runSubprocessTimeoutExc = 1
    ∧ isCalledProcessErrorInstance runSubprocessTimeoutExc = false
    ∧ runSubprocessTimeoutExc = PyExc.timeoutExpired
    ∧ mainExceptCode PyExc.calledProcessError = 2
    ∧ mainExceptCode PyExc.keyboardInterrupt = 130 := by
  decide

/-- C9 counterexample: with the current working directory `/cwd`, an explicit
`--mount-dir /cwd` (equal to the argparse default) together with
`--context /other` ends with the mount directory overwritten to `/other`, so an
explicitly supplied `--mount-dir` value is not always preserved. -/
theorem c9_legacy_context_counterexample :
    (applyLegacyContext (chars "/cwd") (some (chars "/other")) none
        (parsedMountDir (chars "/cwd") (some (chars "/cwd")))).mount_dir
      ≠ chars "/cwd" := by
  decide

/-- C9 (amended): the deprecated `--context` flag warns exactly when used; an
explicit `--build-context` is never overwritten, and `--context` fills it only
when unset; the mount directory is overwritten exactly when its parsed value
equals the current working directory (argparse's default), so an explicit
`--mount-dir` whose value differs from the cwd is preserved, while an explicit
value equal to the cwd is indistinguishable from the default and is replaced. -/
theorem c9_legacy_context (cwd : Str) (legacy_context build_context0 userMountDir : Option Str) :
    (applyLegacyContext cwd legacy_context build_context0
        (parsedMountDir cwd userMountDir)).warned = legacy_context.isSome
    ∧ (legacy_context = none →
        applyLegacyContext cwd legacy_context build_context0
          (parsedMountDir cwd userMountDir) =
        { build_context := build_context0,
          mount_dir := parsedMountDir cwd userMountDir, warned := false })
    ∧ (∀ b, build_context0 = some b →
        (applyLegacyContext cwd legacy_context build_context0
          (parsedMountDir cwd userMountDir)).build_context = some b)
    ∧ (∀ lc, legacy_context = some lc → build_context0 = none →
        (applyLegacyContext cwd legacy_context build_context0
          (parsedMountDir cwd userMountDir)).build_context = some lc)
    ∧ (∀ v, userMountDir = some v → v ≠ cwd →
        (applyLegacyContext cwd legacy_context build_context0
          (parsedMountDir cwd userMountDir)).mount_dir = v)
    ∧ (∀ lc, legacy_context = some lc → parsedMountDir cwd userMountDir = cwd →
        (applyLegacyContext cwd legacy_context build_context0
          (parsedMountDir cwd userMountDir)).mount_dir = lc) := by
  refine ⟨?_, ?_, ?_, ?_, ?_, ?_⟩
  · cases legacy_context <;> simp [applyLegacyContext]
  · intro h
    subst h
    rfl
  · intro b hb
    subst hb
    cases legacy_context <;> simp [applyLegacyContext]
  · intro lc hlc hbc
    subst hlc
    subst hbc
    simp [applyLegacyContext]
  · intro v hv hne
    subst hv
    cases legacy_context with
    | none => simp [applyLegacyContext, parsedMountDir]
    | some lc =>
      simp only [applyLegacyContext, parsedMountDir, Option.getD_some]
      rw [if_neg (by simpa using hne)]
  · intro lc hlc heq
    subst hlc
    simp only [applyLegacyContext, heq]
    simp

/-- Witness for C9 (amended) at concrete flag values: an explicit
`--build-context` and an explicit `--mount-dir` different from the cwd survive
`--context`, while an unset build context is filled from it. -/
theorem c9_legacy_context_witness :
    (applyLegacyContext (chars "/cwd") (some (chars "/o")) (some (chars "/bc"))
        (parsedMountDir (chars "/cwd") (some (chars "/m")))).build_context
      = some (chars "/bc")
    ∧ (applyLegacyContext (chars "/cwd") (some (chars "/o")) (some (chars "/bc"))
        (parsedMountDir (chars "/cwd") (some (chars "/m")))).mount_dir = chars "/m"
    ∧ (applyLegacyContext (chars "/cwd") (some (chars "/o")) none
        (parsedMountDir (chars "/cwd") none)).build_context = some (chars "/o") :=
  ⟨(c9_legacy_context (chars "/cwd") (some (chars "/o")) (some (chars "/bc"))
      (some (chars "/m"))).2.2.1 (chars "/bc") rfl,
   (c9_legacy_context (chars "/cwd") (some (chars "/o")) (some (chars "/bc"))
      (some (chars "/m"))).2.2.2.2.1 (chars "/m") rfl (by decide),
   (c9_legacy_context (chars "/cwd") (some (chars "/o")) none none).2.2.2.1
      (chars "/o") rfl rfl⟩

/-- C10: when `--force-build` and `--no-build` are both passed, the force check
wins and a build is performed; the `image_exists` probe is consulted exactly
when neither flag is set. -/
theorem c10_build_decision (force_build no_build imageExistsProbe : Bool) :
    buildDecision true true imageExistsProbe = (true, false)
    ∧ (buildDecision force_build no_build imageExistsProbe).2 = (!force_build && !no_build)
    ∧ (buildDecision true no_build imageExistsProbe).1 = true
    ∧ buildDecision false false imageExistsProbe = (!imageExistsProbe, true)
    ∧ buildDecision false true imageExistsProbe = (false, false) := by
  cases force_build <;> cases no_build <;> cases imageExistsProbe <;>
    simp [buildDecision]

/-- C6: the in-container command is the trailing tokens verbatim with a single
leading `--` removed (a later `--` is untouched); when no tokens remain it
falls back to the per-agent default, so it is never empty. -/
theorem c6_container_command :
    (∀ agent rest, rest ≠ [] → containerCommand agent (chars "--" :: rest) = rest)
    ∧ (∀ agent cmd, cmd ≠ [] → cmd.take 1 ≠ [chars "--"] →
        containerCommand agent cmd = cmd)
    ∧ (∀ agent, containerCommand agent [] = defaultCommand agent)
    ∧ (∀ agent, containerCommand agent [chars "--"] = defaultCommand agent)
    ∧ (∀ agent cmd, containerCommand agent cmd ≠ [])
    ∧ defaultCommand Agent.codex = [chars "codex", chars "--full-auto"]
    ∧ defaultCommand Agent.copilot =
        [chars "copilot", chars "--add-dir", chars "/workspace", chars "--allow-all-tools"] := by
  refine ⟨?_, ?_, ?_, ?_, ?_, rfl, rfl⟩
  · intro agent rest hne
    cases rest with
    | nil => exact absurd rfl hne
    | cons a l => simp [containerCommand]
  · intro agent cmd h1 h2
    cases cmd with
    | nil => exact absurd rfl h1
    | cons b l =>
      have hb : b ≠ chars "--" := by
        intro hcontra
        exact h2 (by simp [hcontra])
      simp [containerCommand, hb]
  · intro agent
    cases agent <;> rfl
  · intro agent
    cases agent <;> rfl
  · intro agent cmd hcontra
    simp only [containerCommand] at hcontra
    by_cases he : (if cmd.take 1 == [chars "--"] then cmd.drop 1 else cmd).isEmpty = true
    · rw [if_pos he] at hcontra
      cases agent <;> simp [defaultCommand] at hcontra
    · rw [if_neg he] at hcontra
      rw [hcontra] at he
      simp at he

/-- Witness for C6 at the spec's concrete inputs. -/
theorem c6_container_command_witness :
    containerCommand Agent.codex [chars "--", chars "/bin/bash"] = [chars "/bin/bash"]
    ∧ containerCommand Agent.codex [chars "/bin/bash", chars "--", chars "-x"] =
        [chars "/bin/bash", chars "--", chars "-x"]
    ∧ containerCommand Agent.copilot [] = defaultCommand Agent.copilot :=
  ⟨c6_container_command.1 Agent.codex [chars "/bin/bash"] (by decide),
   c6_container_command.2.1 Agent.codex [chars "/bin/bash", chars "--", chars "-x"]
     (by decide) (by decide),
   c6_container_command.2.2.1 Agent.copilot⟩

/-- C7: when a build is required and the resolved Dockerfile path does not
exist, the build step logs an error naming that path and returns the non-zero
status 1 without issuing any engine build invocation. -/
theorem c7_missing_dockerfile (isfile : Str → Bool)
    (container_cli image dockerfile context : Str) (needs_build : Bool)
    (hneed : needs_build = true) (hmiss : isfile dockerfile = false) :
    (buildPhase isfile container_cli image dockerfile context needs_build).exitCode = some 1
    ∧ (1 : Nat) ≠ 0
    ∧ (buildPhase isfile container_cli image dockerfile context needs_build).engineCalls = []
    ∧ (buildPhase isfile container_cli image dockerfile context needs_build).errorLogs =
        [chars "Dockerfile not found at " ++ dockerfile ++
          chars ". Cannot build image. Use --dockerfile or --build-context to specify the correct location."]
    ∧ pyIn dockerfile (chars "Dockerfile not found at " ++ dockerfile ++
        chars ". Cannot build image. Use --dockerfile or --build-context to specify the correct location.") = true := by
  subst hneed
  refine ⟨?_, by decide, ?_, ?_, ?_⟩
  · simp [buildPhase, hmiss]
  · simp [buildPhase, hmiss]
  · simp [buildPhase, hmiss]
  · exact pyIn_sandwich dockerfile (chars "Dockerfile not found at ")
      (chars ". Cannot build image. Use --dockerfile or --build-context to specify the correct location.")

/-- Witness for C7: a missing Dockerfile at a concrete path. -/
theorem c7_missing_dockerfile_witness :
    (buildPhase (fun _ => false) (chars "docker") (chars "img")
        (chars "/bc/Dockerfile") (chars "/bc") true).exitCode = some 1
    ∧ (buildPhase (fun _ => false) (chars "docker") (chars "img")
        (chars "/bc/Dockerfile") (chars "/bc") true).engineCalls = [] :=
  ⟨(c7_missing_dockerfile (fun _ => false) (chars "docker") (chars "img")
      (chars "/bc/Dockerfile") (chars "/bc") true rfl rfl).1,
   (c7_missing_dockerfile (fun _ => false) (chars "docker") (chars "img")
      (chars "/bc/Dockerfile") (chars "/bc") true rfl rfl).2.2.1⟩

/-- C4: the candidate list is the explicit `--auth-file` value if given,
otherwise the two defaults in their fixed order; each candidate is
tilde-expanded and, when not absolute after expansion, joined onto the mount
path; the resolved auth file is the first resolved candidate that exists, and
when none exists the result is `None` together with a single warning listing
all resolved candidate paths in their original order. -/
theorem c4_auth_resolution (isfile : Str → Bool) (home mount_dir : Str)
    (auth_file : Option Str) (no_auth : Bool)
    (hgiven : auth_file ≠ some [])
    (hskip : (no_auth ||
      (pyTruthy auth_file && asciiLower (optVal auth_file) == chars "none")) = false) :
    resolveAuthCandidates home mount_dir
        (auth_file.elim defaultAuthFiles (fun a => [a])) =
      (auth_file.elim defaultAuthFiles (fun a => [a])).map (fun c =>
        if isabs (expanduser home c) then expanduser home c else joinPath mount_dir c)
    ∧ (authPhase isfile home mount_dir auth_file no_auth).1 =
        ((resolveAuthCandidates home mount_dir
            (auth_file.elim defaultAuthFiles (fun a => [a]))).dropWhile
          (fun r => !isfile r)).head?
    ∧ (authPhase isfile home mount_dir auth_file no_auth).2 =
        (if (((resolveAuthCandidates home mount_dir
              (auth_file.elim defaultAuthFiles (fun a => [a]))).dropWhile
            (fun r => !isfile r)).head?).isSome = true then none
         else some (chars "Auth file not found at " ++
            List.intercalate (chars ", ")
              (resolveAuthCandidates home mount_dir
                (auth_file.elim defaultAuthFiles (fun a => [a]))) ++
            chars ". Continuing without mounting credentials.")) := by
  have hc : (if pyTruthy auth_file then [optVal auth_file] else defaultAuthFiles) =
      auth_file.elim defaultAuthFiles (fun a => [a]) := by
    rcases auth_file with _ | a
    · rfl
    · rcases a with _ | ⟨x, xs⟩
      · exact absurd rfl hgiven
      · simp [pyTruthy, optVal]
  refine ⟨rfl, ?_, ?_⟩
  · simp only [authPhase, hskip, Bool.false_eq_true, if_false, hc, resolveAuthFile,
      find?_eq_head?_dropWhile]
    cases hh : ((resolveAuthCandidates home mount_dir
        (auth_file.elim defaultAuthFiles (fun a => [a]))).dropWhile
      (fun a => !isfile a)).head? with
    | none => rfl
    | some f => rfl
  · simp only [authPhase, hskip, Bool.false_eq_true, if_false, hc, resolveAuthFile,
      find?_eq_head?_dropWhile]
    cases hh : ((resolveAuthCandidates home mount_dir
        (auth_file.elim defaultAuthFiles (fun a => [a]))).dropWhile
      (fun a => !isfile a)).head? with
    | none => rfl
    | some f => rfl

/-- Witness for C4: with only `~/.codex/auth.json` existing under the home
directory, the default candidate list resolves to that second candidate; with a
relative explicit candidate and nothing on disk, the result is `None` with the
warning naming the mount-relative resolved path. -/
theorem c4_auth_resolution_witness :
    (authPhase (fun r => r == chars "/home/u/.codex/auth.json") (chars "/home/u")
        (chars "/mnt") none false).1 = some (chars "/home/u/.codex/auth.json")
    ∧ (authPhase (fun _ => false) (chars "/home/u") (chars "/mnt")
        (some (chars "rel/device_auth.json")) false).2 =
      some (chars "Auth file not found at /mnt/rel/device_auth.json. Continuing without mounting credentials.") := by
  constructor
  · rw [(c4_auth_resolution (fun r => r == chars "/home/u/.codex/auth.json")
      (chars "/home/u") (chars "/mnt") none false (by decide) (by decide)).2.1]
    decide
  · rw [(c4_auth_resolution (fun _ => false) (chars "/home/u") (chars "/mnt")
      (some (chars "rel/device_auth.json")) false (by decide) (by decide)).2.2]
    decide

theorem redact_branch_decomp (item k : Str)
    (h : (pyStartsWith item (k ++ chars "=") ||
      (pyIn (chars "=") item && beforeEq item == k)) = true) :
    ∃ suf, item = k ++ chars "=" ++ suf := by
  rw [Bool.or_eq_true] at h
  rcases h with h1 | h2
  · obtain ⟨t, ht⟩ := List.isPrefixOf_iff_prefix.mp h1
    exact ⟨t, by rw [← ht]⟩
  · rw [Bool.and_eq_true] at h2
    obtain ⟨hin, hbe⟩ := h2
    rw [pyIn] at hin
    obtain ⟨p, hp⟩ := Option.isSome_iff_exists.mp hin
    obtain ⟨pre, suf⟩ := p
    have hdecomp := splitFirst_eq_some (chars "=") item pre suf hp
    have hpre : beforeEq item = pre := by rw [beforeEq, hp]
    have hk : pre = k := by
      have := beq_iff_eq.mp hbe
      rw [hpre] at this
      exact this
    exact ⟨suf, by rw [hdecomp, hk]⟩

theorem redact_branch_false (item k : Str)
    (hin : pyIn (k ++ chars "=") item = false) :
    (pyStartsWith item (k ++ chars "=") ||
      (pyIn (chars "=") item && beforeEq item == k)) = false := by
  cases hb : (pyStartsWith item (k ++ chars "=") ||
      (pyIn (chars "=") item && beforeEq item == k)) with
  | false => rfl
  | true =>
    obtain ⟨suf, hsuf⟩ := redact_branch_decomp item k hb
    have hpi : pyIn (k ++ chars "=") item = true := by
      have h0 := pyIn_sandwich (k ++ chars "=") [] suf
      rw [List.nil_append] at h0
      rw [hsuf]
      exact h0
    rw [hpi] at hin
    cases hin

theorem redactItemGo_skip (item k : Str) (ks : List Str)
    (hin : pyIn (k ++ chars "=") item = false) :
    redactItemGo item (k :: ks) = redactItemGo item ks := by
  rw [redactItemGo]
  rw [if_neg (by simp [redact_branch_false item k hin])]
  have hsp : splitFirst (k ++ chars "=") item = none := by
    rw [pyIn] at hin
    exact Option.not_isSome_iff_eq_none.mp (by simp [hin])
  rw [hsp]

theorem redactItemGo_id (item : Str) :
    ∀ ks : List Str, (ks.all (fun k => !pyIn (k ++ chars "=") item)) = true →
      redactItemGo item ks = item := by
  intro ks
  induction ks with
  | nil => intro _; rfl
  | cons k ks ih =>
    intro h
    rw [List.all_cons, Bool.and_eq_true] at h
    obtain ⟨h1, h2⟩ := h
    have hin : pyIn (k ++ chars "=") item = false := by simpa using h1
    rw [redactItemGo_skip item k ks hin]
    exact ih h2

theorem redactItemGo_replaced (item : Str) :
    ∀ ks : List Str, (ks.all (fun k => !pyIn (k ++ chars "=") item)) = false →
      ∃ k ∈ ks, ∃ pre suf, item = pre ++ k ++ chars "=" ++ suf ∧
        redactItemGo item ks = pre ++ k ++ chars "=REDACTED" := by
  intro ks
  induction ks with
  | nil => intro h; simp at h
  | cons k ks ih =>
    intro h
    by_cases hk : pyIn (k ++ chars "=") item = true
    · by_cases hbr : (pyStartsWith item (k ++ chars "=") ||
          (pyIn (chars "=") item && beforeEq item == k)) = true
      · obtain ⟨suf, hsuf⟩ := redact_branch_decomp item k hbr
        refine ⟨k, by simp, [], suf, by simpa using hsuf, ?_⟩
        rw [redactItemGo, if_pos hbr]
        simp
      · rw [pyIn] at hk
        obtain ⟨p, hp⟩ := Option.isSome_iff_exists.mp hk
        obtain ⟨pre, suf⟩ := p
        have hdecomp := splitFirst_eq_some (k ++ chars "=") item pre suf hp
        refine ⟨k, by simp, pre, suf, by rw [hdecomp]; simp, ?_⟩
        rw [redactItemGo, if_neg hbr, hp]
    · have hin : pyIn (k ++ chars "=") item = false := by simpa using hk
      have htail : (ks.all (fun k => !pyIn (k ++ chars "=") item)) = false := by
        rw [List.all_cons] at h
        simpa [hin] using h
      obtain ⟨k', hk', pre, suf, hitem, hres⟩ := ih htail
      refine ⟨k', by simp [hk'], pre, suf, hitem, ?_⟩
      rw [redactItemGo_skip item k ks hin]
      exact hres

/-- C5: a token with no denylisted `KEY=` occurrence is returned unchanged by
the redactor; otherwise the value portion after the key is replaced by
`REDACTED` with the prefix before the key preserved, and in particular
`GITHUB_TOKEN=abc123` and `--env=GITHUB_TOKEN=abc123` redact to
`GITHUB_TOKEN=REDACTED` and `--env=GITHUB_TOKEN=REDACTED`. -/
theorem c5_redact_item (item : Str) :
    ((redactKeys.all (fun k => !pyIn (k ++ chars "=") item)) = true →
      redactItem item = item)
    ∧ ((redactKeys.all (fun k => !pyIn (k ++ chars "=") item)) = false →
        ∃ k ∈ redactKeys, ∃ pre suf, item = pre ++ k ++ chars "=" ++ suf ∧
          redactItem item = pre ++ k ++ chars "=REDACTED")
    ∧ redactItem (chars "GITHUB_TOKEN=abc123") = chars "GITHUB_TOKEN=REDACTED"
    ∧ redactItem (chars "--env=GITHUB_TOKEN=abc123") =
        chars "--env=GITHUB_TOKEN=REDACTED" :=
  ⟨fun h => redactItemGo_id item redactKeys h,
   fun h => redactItemGo_replaced item redactKeys h,
   by decide, by decide⟩

/-- Witness for C5: a flag token with no denylisted key is unchanged, and the
claimed example token is redacted. -/
theorem c5_redact_item_witness :
    redactItem (chars "--no-tty") = chars "--no-tty"
    ∧ redactItem (chars "GITHUB_TOKEN=abc123") = chars "GITHUB_TOKEN=REDACTED" :=
  ⟨(c5_redact_item (chars "--no-tty")).1 (by decide),
   (c5_redact_item (chars "GITHUB_TOKEN=abc123")).2.2.1⟩

theorem tok_e_not_gh : pyStartsWith (chars "-e") (chars "GH_TOKEN" ++ chars "=") = false := rfl

theorem tok_e_not_gt :
    pyStartsWith (chars "-e") (chars "GITHUB_TOKEN" ++ chars "=") = false := rfl

theorem gtv_not_gh (v : Str) :
    pyStartsWith (chars "GITHUB_TOKEN=" ++ v) (chars "GH_TOKEN" ++ chars "=") = false := rfl

theorem ghv_not_gt (v : Str) :
    pyStartsWith (chars "GH_TOKEN=" ++ v) (chars "GITHUB_TOKEN" ++ chars "=") = false := rfl

theorem injectTokens_codex_present (env : Str → Option Str) (args : List Str)
    (h : hasEnvArg args (chars "GITHUB_TOKEN") = true) :
    injectTokens Agent.codex env args = args := by
  simp only [injectTokens]
  rw [if_neg (by decide : ¬(Agent.codex = Agent.copilot))]
  rw [h]
  simp

theorem injectTokens_codex_form (env : Str → Option Str) (args : List Str) :
    injectTokens Agent.codex env args = args ∨
      ∃ v, injectTokens Agent.codex env args =
        args ++ [chars "-e", chars "GITHUB_TOKEN=" ++ v] := by
  simp only [injectTokens]
  rw [if_neg (by decide : ¬(Agent.codex = Agent.copilot))]
  by_cases hc : (pyTruthy (env (chars "GITHUB_AI_PAT_TOKEN")) &&
      !(Agent.codex = Agent.copilot : Bool) &&
      !hasEnvArg args (chars "GITHUB_TOKEN")) = true
  · exact Or.inr ⟨optVal (env (chars "GITHUB_AI_PAT_TOKEN")), by rw [if_pos hc]⟩
  · exact Or.inl (by rw [if_neg hc])

theorem injectTokens_copilot_gh_present (env : Str → Option Str) (args : List Str)
    (h : hasEnvArg args (chars "GH_TOKEN") = true) :
    injectTokens Agent.copilot env args = args ∨
      ∃ v, injectTokens Agent.copilot env args =
        args ++ [chars "-e", chars "GITHUB_TOKEN=" ++ v] := by
  simp only [injectTokens, if_true, decide_True, Bool.not_true, Bool.and_false,
    Bool.false_and]
  rw [if_neg Bool.false_ne_true]
  rw [h]
  simp only [Bool.not_true, Bool.and_false]
  rw [if_neg Bool.false_ne_true]
  by_cases hgt : (pyTruthy (env (chars "GITHUB_TOKEN")) &&
      !hasEnvArg args (chars "GITHUB_TOKEN")) = true
  · exact Or.inr ⟨optVal (env (chars "GITHUB_TOKEN")), by rw [if_pos hgt]⟩
  · exact Or.inl (by rw [if_neg hgt])

theorem injectTokens_copilot_gt_present (env : Str → Option Str) (args : List Str)
    (h : hasEnvArg args (chars "GITHUB_TOKEN") = true) :
    injectTokens Agent.copilot env args = args ∨
      ∃ v, injectTokens Agent.copilot env args =
        args ++ [chars "-e", chars "GH_TOKEN=" ++ v] := by
  simp only [injectTokens, if_true, decide_True, Bool.not_true, Bool.and_false,
    Bool.false_and]
  rw [if_neg Bool.false_ne_true]
  by_cases hgh : (pyTruthy (env (chars "GH_TOKEN")) &&
      !hasEnvArg args (chars "GH_TOKEN")) = true
  · rw [if_pos hgh]
    have hmono := hasEnvArg_append_mono (chars "GITHUB_TOKEN") args
      [chars "-e", chars "GH_TOKEN=" ++ optVal (env (chars "GH_TOKEN"))] h
    rw [hmono]
    simp only [Bool.not_true, Bool.and_false]
    rw [if_neg Bool.false_ne_true]
    exact Or.inr ⟨optVal (env (chars "GH_TOKEN")), rfl⟩
  · rw [if_neg hgh]
    rw [h]
    simp only [Bool.not_true, Bool.and_false]
    rw [if_neg Bool.false_ne_true]
    exact Or.inl rfl

theorem injectTokens_copilot_form (env : Str → Option Str) (args : List Str) :
    ∃ l, injectTokens Agent.copilot env args = args ++ l := by
  simp only [injectTokens, if_true, decide_True, Bool.not_true, Bool.and_false,
    Bool.false_and]
  rw [if_neg Bool.false_ne_true]
  by_cases hgh : (pyTruthy (env (chars "GH_TOKEN")) &&
      !hasEnvArg args (chars "GH_TOKEN")) = true
  · rw [if_pos hgh]
    by_cases hgt : (pyTruthy (env (chars "GITHUB_TOKEN")) &&
        !hasEnvArg (args ++ [chars "-e", chars "GH_TOKEN=" ++ optVal (env (chars "GH_TOKEN"))])
          (chars "GITHUB_TOKEN")) = true
    · rw [if_pos hgt]
      exact ⟨[chars "-e", chars "GH_TOKEN=" ++ optVal (env (chars "GH_TOKEN")),
        chars "-e", chars "GITHUB_TOKEN=" ++ optVal (env (chars "GITHUB_TOKEN"))], by simp⟩
    · rw [if_neg hgt]
      exact ⟨_, rfl⟩
  · rw [if_neg hgh]
    by_cases hgt : (pyTruthy (env (chars "GITHUB_TOKEN")) &&
        !hasEnvArg args (chars "GITHUB_TOKEN")) = true
    · rw [if_pos hgt]
      exact ⟨_, rfl⟩
    · rw [if_neg hgt]
      exact ⟨[], by simp⟩

theorem injectTokens_shape (agent : Agent) (env : Str → Option Str) (args : List Str) :
    ∃ l, injectTokens agent env args = args ++ l := by
  cases agent with
  | codex =>
    rcases injectTokens_codex_form env args with h | ⟨v, h⟩
    · exact ⟨[], by simp [h]⟩
    · exact ⟨_, h⟩
  | copilot => exact injectTokens_copilot_form env args

/-- C3: automatic token injection never overrides user-supplied values — the
user's `--docker-arg` list is preserved as a prefix, and when the user args
already set `GH_TOKEN` or `GITHUB_TOKEN` no appended token sets that key; in
particular with agent codex, `--docker-arg GITHUB_TOKEN=explicit` and
environment `GITHUB_AI_PAT_TOKEN=fromenv`, the final extra-args list is exactly
`["GITHUB_TOKEN=explicit"]`, whose only entry setting `GITHUB_TOKEN` carries
the value `explicit`. -/
theorem c3_token_injection (agent : Agent) (env : Str → Option Str)
    (docker_arg : List Str) (key : Str)
    (hkey : key = chars "GH_TOKEN" ∨ key = chars "GITHUB_TOKEN")
    (hpresent : hasEnvArg docker_arg key = true) :
    (injectTokens agent env docker_arg).take docker_arg.length = docker_arg
    ∧ ((injectTokens agent env docker_arg).drop docker_arg.length).all
        (fun t => !pyStartsWith t (key ++ chars "=")) = true
    ∧ injectTokens Agent.codex
        (fun k => if k == chars "GITHUB_AI_PAT_TOKEN" then some (chars "fromenv") else none)
        [chars "GITHUB_TOKEN=explicit"] = [chars "GITHUB_TOKEN=explicit"]
    ∧ (injectTokens Agent.codex
        (fun k => if k == chars "GITHUB_AI_PAT_TOKEN" then some (chars "fromenv") else none)
        [chars "GITHUB_TOKEN=explicit"]).filter
        (fun t => pyStartsWith t (chars "GITHUB_TOKEN=")) =
      [chars "GITHUB_TOKEN=explicit"] := by
  refine ⟨?_, ?_, by decide, by decide⟩
  · obtain ⟨l, hl⟩ := injectTokens_shape agent env docker_arg
    rw [hl, List.take_left]
  · rcases hkey with rfl | rfl
    · cases agent with
      | codex =>
        rcases injectTokens_codex_form env docker_arg with h | ⟨v, h⟩
        · rw [h, List.drop_length]
          rfl
        · rw [h, List.drop_left]
          simp [tok_e_not_gh, gtv_not_gh]
      | copilot =>
        rcases injectTokens_copilot_gh_present env docker_arg hpresent with h | ⟨v, h⟩
        · rw [h, List.drop_length]
          rfl
        · rw [h, List.drop_left]
          simp [tok_e_not_gh, gtv_not_gh]
    · cases agent with
      | codex =>
        rw [injectTokens_codex_present env docker_arg hpresent, List.drop_length]
        rfl
      | copilot =>
        rcases injectTokens_copilot_gt_present env docker_arg hpresent with h | ⟨v, h⟩
        · rw [h, List.drop_length]
          rfl
        · rw [h, List.drop_left]
          simp [tok_e_not_gt, ghv_not_gt]

/-- Witness for C3: with `GITHUB_TOKEN` already set by the user, nothing
appended by injection sets it, and the spec's concrete codex scenario keeps the
user value. -/
theorem c3_token_injection_witness :
    ((injectTokens Agent.codex (fun _ => none) [chars "GITHUB_TOKEN=x"]).drop 1).all
        (fun t => !pyStartsWith t (chars "GITHUB_TOKEN" ++ chars "=")) = true
    ∧ injectTokens Agent.codex
        (fun k => if k == chars "GITHUB_AI_PAT_TOKEN" then some (chars "fromenv") else none)
        [chars "GITHUB_TOKEN=explicit"] = [chars "GITHUB_TOKEN=explicit"] :=
  ⟨(c3_token_injection Agent.codex (fun _ => none) [chars "GITHUB_TOKEN=x"]
      (chars "GITHUB_TOKEN") (Or.inr rfl) (by decide)).2.1,
   (c3_token_injection Agent.codex (fun _ => none) [chars "GITHUB_TOKEN=x"]
      (chars "GITHUB_TOKEN") (Or.inr rfl) (by decide)).2.2.1⟩
